/-
Verification of the weaklink runtime and build library against its
natural-language specification.

The definitions below are a shallow embedding of the Rust sources:
  * src/weaklink/src/lib.rs        (runtime Library and Group objects)
  * src/weaklink_build/src/lib.rs  (build-time Config)
  * src/weaklink_build/src/exports.rs and imports.rs (object inspector)
  * src/weaklink_build/src/stub_gen/mod.rs (stub generator)

Machine integers (u64 slots, u8 status bytes) are modelled as Nat, with an
explicit mod 2^64 where u64 overflow can occur.  Fallible Rust functions
returning Result are modelled with Option/Except; a Rust panic is modelled
as a distinguished outcome.  The `checked` cargo feature of the runtime
crate selects between two compiled variants of several functions; it is
modelled as a Bool parameter selecting between the two cfg branches.
-/
import Mathlib

namespace Weaklink

/-! ## Runtime model: weaklink/src/lib.rs -/

/-- Mutable state owned by a runtime `Library`:
the synthetic symbol table (pointer-sized slots, 0 = unresolved),
and, for the `checked` build, the lazily initialized `CheckedState`
(shadow symbol table plus the global-assert bitmap, a u8 per symbol).
The OnceLock lazy initialization of `CheckedState` allocates zero-filled
tables; the state is modelled here post-initialization. -/
structure LibState where
  symbol_table : List Nat
  shadow_symbol_table : List Nat
  global_asserted : List Nat
deriving DecidableEq

/-- Outcome of `Library::resolve_symbol`: the returned `Result<Address>`
(`some` = Ok, `none` = Err), the library state after the call, and how many
times the platform `find_symbol` was invoked during the call. -/
structure SymOutcome where
  result : Option Nat
  state : LibState
  findCalls : Nat
deriving DecidableEq

/-- Embedding of `Library::resolve_symbol` (lib.rs lines 162-180).
`checked` selects the cfg(feature = "checked") variant: in that variant
`symbol_table_entry` points into the shadow table and the function first
returns the entry when it is non-zero; in the non-checked variant
`symbol_table_entry` points into the real table and there is no such early
return, so `resolve_symbol_uncached` (a platform `find_symbol` call, modelled
by the oracle `find`) runs on every call, and a successful result is written
to the entry.  `find_symbol` (loading.rs) never returns Ok(0). -/
def resolve_symbol (checked : Bool) (find : Nat → Option Nat) (st : LibState)
    (sym_index : Nat) : SymOutcome :=
  if checked then
    let addr := st.shadow_symbol_table.getD sym_index 0
    if addr ≠ 0 then
      ⟨some addr, st, 0⟩
    else
      match find sym_index with
      | some address =>
          ⟨some address,
           { st with shadow_symbol_table := st.shadow_symbol_table.set sym_index address }, 1⟩
      | none => ⟨none, st, 1⟩
  else
    match find sym_index with
    | some address =>
        ⟨some address, { st with symbol_table := st.symbol_table.set sym_index address }, 1⟩
    | none => ⟨none, st, 1⟩

/-- Embedding of `Library::global_assert_resolved` (lib.rs lines 262-269 for the
checked build, line 216 for the non-checked build, where it is a no-op):
sets the global-assert bitmap byte of every index in `sym_indices` to 1. -/
def global_assert_resolved (checked : Bool) (st : LibState) (sym_indices : List Nat) :
    LibState :=
  if checked then
    { st with global_asserted := sym_indices.foldl (fun g i => g.set i 1) st.global_asserted }
  else st

/-- Outcome of `Group::resolve_uncached`: whether all symbols resolved
(Ok(()) versus the first Err), the state after, and the total number of
platform lookups performed. -/
structure UncachedOutcome where
  ok : Bool
  state : LibState
  findCalls : Nat
deriving DecidableEq

/-- Embedding of `Group::resolve_uncached` (lib.rs lines 315-325): iterate the
group's symbol indices calling `resolve_symbol` on each, returning the first
error.  (In the checked build it first runs `init_checked_state`; the checked
state is modelled as already initialized, see `LibState`.) -/
def resolve_uncached (checked : Bool) (find : Nat → Option Nat) :
    LibState → List Nat → UncachedOutcome
  | st, [] => ⟨true, st, 0⟩
  | st, i :: rest =>
    let r := resolve_symbol checked find st i
    match r.result with
    | some _ =>
        let rr := resolve_uncached checked find r.state rest
        ⟨rr.ok, rr.state, r.findCalls + rr.findCalls⟩
    | none => ⟨false, r.state, r.findCalls⟩

/-- Embedding of a runtime `Group` (lib.rs lines 294-312): the static symbol
index slice and the atomic status byte. -/
structure Group where
  sym_indices : List Nat
  status : Nat
deriving DecidableEq

def GROUP_STATUS_UNRESOLVED : Nat := 0
def GROUP_STATUS_RESOLVED : Nat := 1
def GROUP_STATUS_FAILED : Nat := 2

/-- Outcome of `Group::resolve`: the returned bool, the library state after,
the group (with its possibly updated status byte), and the number of platform
lookups performed during the call. -/
structure GroupOutcome where
  ok : Bool
  state : LibState
  group : Group
  findCalls : Nat
deriving DecidableEq

/-- Embedding of `Group::resolve` (lib.rs lines 328-345): load the status;
on UNRESOLVED run `resolve_uncached`, then on success call
`global_assert_resolved` and store RESOLVED, on failure store FAILED; on
RESOLVED return true; otherwise (FAILED or any other byte) return false,
leaving the status byte unchanged.  (The crate root lib.rs declares no
`mod group`, so the `Group` in lib.rs is the compiled one; src/weaklink/src/group.rs
is not part of the crate.) -/
def Group.resolve (checked : Bool) (find : Nat → Option Nat) (st : LibState)
    (g : Group) : GroupOutcome :=
  match g.status with
  | 0 =>
    let r := resolve_uncached checked find st g.sym_indices
    match r.ok with
    | true =>
        let st2 := global_assert_resolved checked r.state g.sym_indices
        ⟨true, st2, { g with status := GROUP_STATUS_RESOLVED }, r.findCalls⟩
    | false => ⟨false, r.state, { g with status := GROUP_STATUS_FAILED }, r.findCalls⟩
  | 1 => ⟨true, st, g, 0⟩
  | _ => ⟨false, st, g, 0⟩

/-- Concrete state for the C1 counterexample: one symbol whose real table slot
already holds the non-zero address 5. -/
def c1State : LibState := ⟨[5], [0], [0]⟩

/-- Platform-lookup oracle for the C1 counterexample: resolution succeeds with
address 7 (different from the stored 5, so the two behaviours are visibly
distinct). -/
def c1Find : Nat → Option Nat := fun _ => some 7

/-! ## Build-time model: weaklink_build/src/lib.rs -/

/-- Embedding of `SymbolStub` (weaklink_build/src/lib.rs lines 28-35).
Rust's `#[derive(Default)]` yields empty names and `is_data = false`. -/
structure SymbolStub where
  import_name : String
  export_name : String
  is_data : Bool
deriving DecidableEq

instance : Inhabited SymbolStub := ⟨⟨"", "", false⟩⟩

/-- Association-list lookup, modelling `HashMap::get` / the lookup half of
`HashMap::entry` (first matching key wins; keys are inserted at most once). -/
def alookup {β : Type} : List (String × β) → String → Option β
  | [], _ => none
  | p :: rest, key => if p.1 = key then some p.2 else alookup rest key

/-- Embedding of the build-time `Config` (weaklink_build/src/lib.rs lines
58-76).  The two `HashMap` fields are modelled as association lists whose
keys are pairwise distinct (each key is inserted only when absent). -/
structure Config where
  name : String
  target : String
  dylib_names : List String
  adjust_symbol_names : Bool
  stubs : List SymbolStub
  stub_by_exp : List (String × Nat)
  groups : List (String × List Nat)
deriving DecidableEq

/-- Error kinds of `Config::add_symbol_group`, one per distinct `Err(format!..)`
site in weaklink_build/src/lib.rs lines 108-130. -/
inductive AddGroupError where
  | duplicateGroup
  | incompatibleIsData
  | incompatibleImportName
deriving DecidableEq

/-- Embedding of the `for symbol in symbols` loop of `Config::add_symbol_group`
(weaklink_build/src/lib.rs lines 111-143).  The `Config` is threaded through
because the Rust loop mutates `self.stubs` and `self.stub_by_exp` in place:
when a later symbol fails the compatibility check, stubs appended by earlier
iterations stay appended.  On reaching the end, the collected index vector is
inserted into `groups` under `group_name`. -/
def add_symbol_group_loop (group_name : String) :
    Config → List SymbolStub → List Nat → Option AddGroupError × Config
  | c, [], group_syms => (none, { c with groups := c.groups ++ [(group_name, group_syms)] })
  | c, symbol :: rest, group_syms =>
    match alookup c.stub_by_exp symbol.export_name with
    | some idx =>
      let existing := c.stubs.getD idx default
      if existing.is_data ≠ symbol.is_data then (some AddGroupError.incompatibleIsData, c)
      else if existing.import_name ≠ symbol.import_name then
        (some AddGroupError.incompatibleImportName, c)
      else add_symbol_group_loop group_name c rest (group_syms ++ [idx])
    | none =>
      let idx := c.stubs.length
      add_symbol_group_loop group_name
        { c with
          stubs := c.stubs ++ [symbol],
          stub_by_exp := c.stub_by_exp ++ [(symbol.export_name, idx)] }
        rest (group_syms ++ [idx])

/-- Embedding of `Config::add_symbol_group` (weaklink_build/src/lib.rs lines
103-144).  Returns both the `Result` (as `Option AddGroupError`) and the
configuration after the call, since the call can mutate the configuration
even when it returns an error. -/
def add_symbol_group (c : Config) (group_name : String) (symbols : List SymbolStub) :
    Option AddGroupError × Config :=
  if (alookup c.groups group_name).isSome then (some AddGroupError.duplicateGroup, c)
  else add_symbol_group_loop group_name c symbols []

/-- An incoming stub conflicts with the configuration when its export name
is already registered but the registered stub differs in `is_data` or
`import_name` — the condition under which `add_symbol_group` rejects it. -/
def conflicts_with (c : Config) (s : SymbolStub) : Prop :=
  ∃ idx st, alookup c.stub_by_exp s.export_name = some idx ∧ c.stubs[idx]? = some st ∧
    (st.is_data ≠ s.is_data ∨ st.import_name ≠ s.import_name)

/-- Boolean prefix test on character lists (used to model `str::contains`). -/
def isPrefixOfChars : List Char → List Char → Bool
  | [], _ => true
  | _ :: _, [] => false
  | a :: as, b :: bs => a == b && isPrefixOfChars as bs

/-- Boolean substring test on character lists: does `pat` occur contiguously? -/
def containsChars (pat : List Char) : List Char → Bool
  | [] => isPrefixOfChars pat []
  | c :: rest => isPrefixOfChars pat (c :: rest) || containsChars pat rest

/-- Embedding of Rust's `str::contains(pat)` for string patterns. -/
def str_contains (hay pat : String) : Bool :=
  containsChars pat.toList hay.toList

/-- Embedding of Rust's `str::starts_with('_')`. -/
def starts_with_underscore (s : String) : Bool :=
  match s.data with
  | [] => false
  | c :: _ => c == '_'

/-- Embedding of Rust's `String::remove(0)` as applied in the adjustment:
the string with its first character removed. -/
def string_drop_first (s : String) : String := ⟨s.data.drop 1⟩

/-- Embedding of Rust's `String::insert(0, '_')`: the string with an
underscore prepended. -/
def string_prepend_underscore (s : String) : String := "_" ++ s

/-- Embedding of the per-stub MacOS name adjustment inside
`Config::generate_source` (weaklink_build/src/lib.rs lines 154-164): a
non-data stub whose export and import names are equal either loses the
leading underscore of its `import_name` (when the name starts with one) or
gains a leading underscore on its `export_name`.  All other stubs are cloned
unchanged. -/
def adjust_stub (stub : SymbolStub) : SymbolStub :=
  if stub.is_data = false ∧ stub.export_name = stub.import_name then
    if starts_with_underscore stub.export_name then
      { stub with import_name := string_drop_first stub.import_name }
    else
      { stub with export_name := string_prepend_underscore stub.export_name }
  else stub

/-- Embedding of the stub list used by `Config::generate_source`
(weaklink_build/src/lib.rs lines 148-167): when `adjust_symbol_names` is set
and the target triple contains "-apple-", a fresh adjusted copy of the stub
vector is produced; otherwise the stored vector is borrowed as is
(`Cow::from`). -/
def adjusted_stubs (c : Config) : List SymbolStub :=
  if c.adjust_symbol_names = true ∧ str_contains c.target "-apple-" = true then
    c.stubs.map adjust_stub
  else c.stubs

/-- Embedding of the interface shape of `Config::generate_source`: it takes
`&self` (an immutable borrow), so the emitted text is computed from
`adjusted_stubs` while the configuration itself is returned unchanged. -/
def generate_source_stubs (c : Config) : List SymbolStub × Config :=
  (adjusted_stubs c, c)

/-! ## Stub generator model: weaklink_build/src/stub_gen/mod.rs -/

/-- Embedding of one entry line of the synthetic symbol-table assembly block
emitted by `StubGenerator::generate` (stub_gen/mod.rs lines 23-30): when a
symbol resolver was supplied (lazy binding) and the stub is not a data stub,
the pointer-sized directive is initialized with the per-symbol thunk label
`resolve_<idx>`; in every other case it is initialized with 0.  `dir` is the
generator's `data_ptr_directive` (".quad", or ".long" on ARM32). -/
def table_entry_line (dir : String) (lazy : Bool) (idx : Nat) (sym : SymbolStub) : String :=
  if lazy = true ∧ sym.is_data = false then
    "    " ++ dir ++ " resolve_" ++ toString idx
  else
    "    " ++ dir ++ " 0"

/-- The entry lines of the symbol-table block, one per stub, in stub order. -/
def symbol_table_entries (dir : String) (lazy : Bool) (symbols : List SymbolStub) :
    List String :=
  symbols.enum.map (fun p => table_entry_line dir lazy p.1 p.2)

/-- Structured view of the items `StubGenerator::generate` emits, in order:
the symbol-table data block, the optional resolver trampoline block, then
per stub either an assembly function-stub block (with, under lazy binding,
its `resolve_<i>` thunk) or a high-level data accessor function. -/
inductive GenItem where
  | tableBlock (entries : List String)
  | resolverBlock (resolver : String)
  | fnStub (export_name : String) (index : Nat) (withBinder : Bool)
  | dataAccessor (export_name : String) (index : Nat)
deriving DecidableEq

/-- Embedding of `StubGenerator::generate` (stub_gen/mod.rs lines 13-75):
emit the symbol-table block, then (when `sym_resolver` is supplied) the
resolver trampoline, then one item per stub: a code stub gets an assembly
trampoline (plus, under lazy binding, a `resolve_<i>` thunk); a data stub
gets an accessor function returning `symbol_table[index] as Address`. -/
def StubGenerator.generate (dir : String) (sym_resolver : Option String)
    (symbols : List SymbolStub) : List GenItem :=
  [GenItem.tableBlock (symbol_table_entries dir sym_resolver.isSome symbols)] ++
  (match sym_resolver with
   | some r => [GenItem.resolverBlock r]
   | none => []) ++
  symbols.enum.map (fun p =>
    if p.2.is_data = false then GenItem.fnStub p.2.export_name p.1 sym_resolver.isSome
    else GenItem.dataAccessor p.2.export_name p.1)

/-- Runtime denotation of one synthetic-symbol-table slot: either a pointer
to the per-symbol `resolve_<index>` thunk (lazy binding) or a plain numeric
address (0 = unresolved). -/
inductive Slot where
  | thunkPtr (index : Nat)
  | value (address : Nat)
deriving DecidableEq

/-- Initial value of slot `idx` as assembled from `table_entry_line`:
`resolve_<idx>` becomes a thunk pointer, `0` becomes the null address. -/
def init_slot (lazy : Bool) (idx : Nat) (sym : SymbolStub) : Slot :=
  if lazy = true ∧ sym.is_data = false then Slot.thunkPtr idx else Slot.value 0

/-- The synthetic symbol table as assembled, before any resolution. -/
def init_table (lazy : Bool) (symbols : List SymbolStub) : List Slot :=
  symbols.enum.map (fun p => init_slot lazy p.1 p.2)

/-- Numeric value stored in a slot, given the link-time addresses
`thunk_addr i` of the `resolve_<i>` thunks. -/
def slot_address (thunk_addr : Nat → Nat) : Slot → Nat
  | Slot.thunkPtr i => thunk_addr i
  | Slot.value a => a

/-- What happens when the client calls into a generated item. -/
inductive CallOutcome where
  | returnsAddress (a : Nat)
  | entersResolver (sym_index : Nat)
  | jumpsTo (a : Nat)
deriving DecidableEq

/-- Execution model of the generated items against a table state: a data
accessor returns the current numeric value of its slot (stub_gen/mod.rs
lines 64-72); a code trampoline jumps through its slot (`write_fn_stub`),
entering the lazy resolver exactly when the slot still holds a thunk
pointer.  The table and resolver blocks are data, not callable. -/
def call_generated (thunk_addr : Nat → Nat) (table : List Slot) :
    GenItem → Option CallOutcome
  | GenItem.dataAccessor _ i =>
      (table[i]?).map (fun sl => CallOutcome.returnsAddress (slot_address thunk_addr sl))
  | GenItem.fnStub _ i _ =>
      (table[i]?).map (fun sl =>
        match sl with
        | Slot.thunkPtr j => CallOutcome.entersResolver j
        | Slot.value a => CallOutcome.jumpsTo a)
  | _ => none

/-! ## Section Range Index model: weaklink_build/src/exports.rs lines 103-125 -/

/-- One entry of `SectionRanges.ranges`: (offset, size, name), u64 offsets
and sizes modelled as Nat. -/
abbrev RangeEntry := Nat × Nat × String

/-- Ordering of range entries by their starting offset (`|s| s.0`). -/
def range_le (a b : RangeEntry) : Prop := a.1 ≤ b.1

instance : DecidableRel range_le := fun a b => Nat.decLe a.1 b.1

instance : IsTotal RangeEntry range_le := ⟨fun a b => Nat.le_total a.1 b.1⟩

instance : IsTrans RangeEntry range_le := ⟨fun _ _ _ h1 h2 => Nat.le_trans h1 h2⟩

/-- Embedding of `SectionRanges::insert` (exports.rs lines 112-115): the new
tuple is placed at the `lower_bound_by_key` position, i.e. before the first
entry whose offset is ≥ the new offset.  On the sorted lists that the struct
maintains (it is only ever populated through `insert`, starting empty) this
is exactly ordered insertion with respect to `range_le`. -/
def SectionRanges.insert (ranges : List RangeEntry) (offset size : Nat) (name : String) :
    List RangeEntry :=
  List.orderedInsert range_le (offset, size, name) ranges

/-- Modulus of u64 arithmetic: the sum `start + size` in `lookup` is a u64
addition, which wraps. -/
def U64_MOD : Nat := 2 ^ 64

/-- Embedding of `SectionRanges::lookup` (exports.rs lines 117-124):
`upper_bound_by_key` on the sorted vector finds the first index with offset
> the target, i.e. the length of the maximal prefix whose offsets are ≤ the
target; the candidate is the entry just before that index, and its name is
returned when `start + size > offset` (u64 arithmetic), otherwise `None`. -/
def SectionRanges.lookup (ranges : List RangeEntry) (offset : Nat) : Option String :=
  let before := ranges.takeWhile (fun r => decide (r.1 ≤ offset))
  match before.getLast? with
  | some r => if (r.1 + r.2.1) % U64_MOD > offset then some r.2.2 else none
  | none => none

/-- Population of a `SectionRanges` by inserting the given (offset, size,
name) tuples in order, starting from the empty index — the way every use
site in exports.rs builds one. -/
def build_ranges (rl : List RangeEntry) : List RangeEntry :=
  rl.foldl (fun s r => SectionRanges.insert s r.1 r.2.1 r.2.2) []

/-- Two section ranges, viewed as half-open intervals [start, start+size),
have no common offset.  (An empty range overlaps nothing.) -/
def ranges_disjoint (a b : RangeEntry) : Prop :=
  a.1 + a.2.1 ≤ b.1 ∨ b.1 + b.2.1 ≤ a.1 ∨ a.2.1 = 0 ∨ b.2.1 = 0

instance : DecidableRel ranges_disjoint := fun _ _ => by
  unfold ranges_disjoint; infer_instance

/-- Specification-side lookup, written from the claim's words: return the
name of the range whose starting offset is the greatest value ≤ the queried
offset and whose start plus size strictly exceeds it; absent when no such
range exists. -/
def lookup_spec (rl : List RangeEntry) (offset : Nat) : Option String :=
  ((rl.filter (fun r =>
      decide (r.1 ≤ offset ∧ (∀ q ∈ rl, q.1 ≤ offset → q.1 ≤ r.1) ∧
        offset < r.1 + r.2.1))).head?).map (fun r => r.2.2)

/-! ## Object inspector model: weaklink_build/src/exports.rs and imports.rs

The inspector operates on goblin's parsed view of the input file; that
parsed view is embedded below.  String tables (`Strtab::get_at`) are
modelled as functions `Nat → Option String`; symbol predicates computed by
goblin (`Sym::is_import`, `Reloc::is_extern`) are carried as fields. -/

/-- Parsed view of an ELF symbol as used by the inspector:
its name-table offset, its section header index, and goblin's
`is_import()` predicate (defined storage iff false). -/
structure ElfSym where
  st_name : Nat
  st_shndx : Nat
  is_import : Bool
deriving DecidableEq

/-- Parsed ELF section header: only the name-table offset is consumed. -/
structure SectionHeader where
  sh_name : Nat
deriving DecidableEq

/-- Parsed ELF relocation: only the symbol-table index is consumed. -/
structure Reloc where
  r_sym : Nat
deriving DecidableEq

/-- Parsed view of an ELF file, with the fields consumed by
`dylib_exports` (dynsyms, dynstrtab, section_headers, shdr_strtab) and by
`get_unique_imports` (shdr_relocs, syms, strtab). -/
structure Elf where
  dynsyms : List ElfSym
  dynstrtab : Nat → Option String
  section_headers : List SectionHeader
  shdr_strtab : Nat → Option String
  syms : List ElfSym
  strtab : Nat → Option String
  shdr_relocs : List (List Reloc)

/-- An export record (exports.rs lines 11-21). -/
structure Export where
  name : String
  sec : Option String
deriving DecidableEq

/-- An import record (imports.rs lines 10-13). -/
structure Import where
  name : String
deriving DecidableEq

/-- Embedding of the ELF loop of `dylib_exports` (exports.rs lines 30-43):
for every dynamic symbol that is not an import and has a non-empty name,
push an export annotated through `elf.section_headers[sym.st_shndx]` — an
unchecked index whose out-of-bounds access is a Rust panic, modelled as
`none`. -/
def elf_exports_go (elf : Elf) : List ElfSym → Option (List Export)
  | [] => some []
  | sym :: rest =>
    if sym.is_import = true then elf_exports_go elf rest
    else
      match elf.dynstrtab sym.st_name with
      | some name =>
        if name ≠ "" then
          match elf.section_headers[sym.st_shndx]? with
          | some sh =>
              (elf_exports_go elf rest).map
                (fun r => { name := name, sec := elf.shdr_strtab sh.sh_name } :: r)
          | none => none
        else elf_exports_go elf rest
      | none => elf_exports_go elf rest

/-- Parsed Mach-O relocation as consumed by `macho_imports`. -/
structure MachReloc where
  is_extern : Bool
  r_symbolnum : Nat
deriving DecidableEq

/-- Parsed view of a Mach-O image.  `sections` carries (file offset, size,
"segname.secname") with the segment/section names already decoded (the
name-decode error path of `segname()?`/`name()?` is not modelled);
`exports` is the outcome of walking the export trie, with each export's
name and file offset; `symbols` is `Some` getter when a symbol table is
present (`get` returns the name or a parse error); `relocations` is the
outcome of `relocations()`, a sequence of relocation iterators whose items
may themselves be parse errors. -/
structure MachO where
  sections : List (Nat × Nat × String)
  exports : Except String (List (String × Nat))
  symbols : Option (Nat → Except String String)
  relocations : Except String (List (List (Except String MachReloc)))

/-- Parsed multi-arch (fat) or single Mach-O container; for the fat case
only `get(0)` — the first slice — is consumed, which may itself fail. -/
inductive SingleArch where
  | machO (m : MachO)
  | archive
inductive Mach where
  | binary (m : MachO)
  | fat (first : Except String SingleArch)

/-- Parsed PE sections (virtual address, virtual size, decoded name) and
export directory entries (optional name, rva), as consumed by the PE arm of
`dylib_exports` (exports.rs lines 82-98). -/
structure PE where
  sections : List (Nat × Nat × String)
  exports : List (Option String × Nat)

/-- Parsed COFF symbol: its section number (i16; 0 = IMAGE_SYM_UNDEFINED)
and the outcome of resolving its name against the string table. -/
structure CoffSym where
  section_number : Int
  name : Except String String

/-- Parsed COFF object: `symtab` is `none` when the string table or symbol
table is unavailable (the `if let Ok(Some(..))` guards of imports.rs lines
86-87 fall through silently). -/
structure Coff where
  symtab : Option (List CoffSym)

mutual
/-- Parsed input container, the result of `Object::parse`.  `ObjectList` is
the member list of an archive (members that fail to extract are skipped by
the source and are simply absent here). -/
inductive Object where
  | elf (e : Elf)
  | mach (m : Mach)
  | pe (p : PE)
  | coff (c : Coff)
  | archive (members : ObjectList)
  | unknown
inductive ObjectList where
  | nil
  | cons (head : Object) (tail : ObjectList)
end

/-- Outcome of an inspector entry point: Ok, a typed error with a
diagnostic message, or a Rust panic. -/
inductive ExOutcome (α : Type) where
  | ok (val : α)
  | err (msg : String)
  | panics
deriving DecidableEq

/-- Embedding of the Mach-O export walk `macho_exports` (exports.rs lines
46-69): build a `SectionRanges` over the image's sections, then annotate
each export-trie entry by looking its file offset up in the index. -/
def macho_exports (m : MachO) : Except String (List Export) :=
  let ranges := m.sections.foldl (fun rs s => SectionRanges.insert rs s.1 s.2.1 s.2.2) []
  match m.exports with
  | Except.ok exps =>
      Except.ok (exps.map (fun e => { name := e.1, sec := SectionRanges.lookup ranges e.2 }))
  | Except.error e => Except.error e

/-- Embedding of the PE arm of `dylib_exports` (exports.rs lines 82-98):
build a `SectionRanges` over virtual addresses, then push one export per
named export-directory entry, annotated by rva. -/
def pe_exports (p : PE) : List Export :=
  let ranges := p.sections.foldl (fun rs s => SectionRanges.insert rs s.1 s.2.1 s.2.2) []
  p.exports.foldr
    (fun e acc =>
      match e.1 with
      | some name => { name := name, sec := SectionRanges.lookup ranges e.2 } :: acc
      | none => acc) []

/-- Embedding of `dylib_exports` (exports.rs lines 24-101), dispatching on
the parsed container.  COFF, archives and unknown containers hit the
catch-all arm and produce the unsupported-object error. -/
def dylib_exports : Object → ExOutcome (List Export)
  | Object.elf e =>
    match elf_exports_go e e.dynsyms with
    | some l => ExOutcome.ok l
    | none => ExOutcome.panics
  | Object.mach (Mach.binary m) =>
    match macho_exports m with
    | Except.ok l => ExOutcome.ok l
    | Except.error e => ExOutcome.err e
  | Object.mach (Mach.fat (Except.ok (SingleArch.machO m))) =>
    match macho_exports m with
    | Except.ok l => ExOutcome.ok l
    | Except.error e => ExOutcome.err e
  | Object.mach (Mach.fat (Except.ok SingleArch.archive)) =>
    ExOutcome.err "The first object in a multiarch binary is not MachO"
  | Object.mach (Mach.fat (Except.error e)) => ExOutcome.err e
  | Object.pe p => ExOutcome.ok (pe_exports p)
  | Object.coff _ => ExOutcome.err "Unsupported object type"
  | Object.archive _ => ExOutcome.err "Unsupported object type"
  | Object.unknown => ExOutcome.err "Unsupported object type"

/-- Embedding of `HashSet::insert`: add the name unless already present.
(The set is modelled as a duplicate-free list; iteration order of the Rust
HashSet is unspecified, membership is what matters.) -/
def insert_unique (acc : List String) (name : String) : List String :=
  if name ∈ acc then acc else acc ++ [name]

/-- Embedding of the inner relocation loop of the ELF arm of
`get_unique_imports` (imports.rs lines 38-49): a relocation contributes its
symbol's name when the symbol exists, `is_import()` holds and `st_shndx ==
0` (the guard against goblin issue 288), and the name resolves. -/
def elf_reloc_imports (elf : Elf) : List Reloc → List String → List String
  | [], acc => acc
  | reloc :: rest, acc =>
    match elf.syms[reloc.r_sym]? with
    | some sym =>
      if sym.is_import = true ∧ sym.st_shndx = 0 then
        match elf.strtab sym.st_name with
        | some sym_name => elf_reloc_imports elf rest (insert_unique acc sym_name)
        | none => elf_reloc_imports elf rest acc
      else elf_reloc_imports elf rest acc
    | none => elf_reloc_imports elf rest acc

/-- The outer loop over `elf.shdr_relocs` of the ELF arm of
`get_unique_imports`. -/
def elf_imports (elf : Elf) : List (List Reloc) → List String → List String
  | [], acc => acc
  | rsection :: rest, acc => elf_imports elf rest (elf_reloc_imports elf rsection acc)

/-- Embedding of the relocation-iterator loop of `macho_imports`
(imports.rs lines 57-65): relocation parse errors and symbol-name
resolution errors propagate; an external relocation contributes its
symbol's name. -/
def mach_reloc_imports (syms : Nat → Except String String) :
    List (Except String MachReloc) → List String → Except String (List String)
  | [], acc => Except.ok acc
  | Except.error e :: _, _ => Except.error e
  | Except.ok reloc :: rest, acc =>
    if reloc.is_extern = true then
      match syms reloc.r_symbolnum with
      | Except.ok name => mach_reloc_imports syms rest (insert_unique acc name)
      | Except.error e => Except.error e
    else mach_reloc_imports syms rest acc

/-- The outer loop over the relocation iterators of `macho_imports`. -/
def mach_iter_imports (syms : Nat → Except String String) :
    List (List (Except String MachReloc)) → List String → Except String (List String)
  | [], acc => Except.ok acc
  | it :: rest, acc =>
    match mach_reloc_imports syms it acc with
    | Except.ok acc2 => mach_iter_imports syms rest acc2
    | Except.error e => Except.error e

/-- Embedding of `macho_imports` (imports.rs lines 53-72): nothing is
collected when the image has no symbol table; a `relocations()` failure is
a typed error. -/
def macho_imports (m : MachO) (acc : List String) : Except String (List String) :=
  match m.symbols with
  | none => Except.ok acc
  | some syms =>
    match m.relocations with
    | Except.ok iters => mach_iter_imports syms iters acc
    | Except.error e => Except.error e

/-- Embedding of the COFF arm of `get_unique_imports` (imports.rs lines
85-97): every symbol whose section number is IMAGE_SYM_UNDEFINED (0)
contributes its resolved name; name-resolution failures propagate. -/
def coff_imports (syms : List CoffSym) (acc : List String) : Except String (List String) :=
  match syms with
  | [] => Except.ok acc
  | s :: rest =>
    if s.section_number = 0 then
      match s.name with
      | Except.ok sym_name => coff_imports rest (insert_unique acc sym_name)
      | Except.error e => Except.error e
    else coff_imports rest acc

mutual
/-- Embedding of `get_unique_imports` (imports.rs lines 26-100): dispatch
on the parsed container, accumulating into the shared name set; archives
recurse over their members; PE and unknown containers hit the catch-all
unsupported-object arm. -/
def get_unique_imports : Object → List String → Except String (List String)
  | Object.archive members, acc => get_unique_imports_list members acc
  | Object.elf e, acc => Except.ok (elf_imports e e.shdr_relocs acc)
  | Object.mach (Mach.binary m), acc => macho_imports m acc
  | Object.mach (Mach.fat (Except.ok (SingleArch.machO m))), acc => macho_imports m acc
  | Object.mach (Mach.fat (Except.ok SingleArch.archive)), _ =>
      Except.error "The first object in a multiarch binary is not MachO"
  | Object.mach (Mach.fat (Except.error e)), _ => Except.error e
  | Object.coff c, acc =>
    match c.symtab with
    | some syms => coff_imports syms acc
    | none => Except.ok acc
  | Object.pe _, _ => Except.error "Unsupported object type"
  | Object.unknown, _ => Except.error "Unsupported object type"
def get_unique_imports_list : ObjectList → List String → Except String (List String)
  | ObjectList.nil, acc => Except.ok acc
  | ObjectList.cons o rest, acc =>
    match get_unique_imports o acc with
    | Except.ok acc2 => get_unique_imports_list rest acc2
    | Except.error e => Except.error e
end

/-- Embedding of `archive_imports` (imports.rs lines 16-24): run
`get_unique_imports` on the parsed file with an empty set and wrap the
collected names. -/
def archive_imports (o : Object) : Except String (List Import) :=
  match get_unique_imports o [] with
  | Except.ok names => Except.ok (names.map (fun s => { name := s }))
  | Except.error e => Except.error e

/-! ## Concrete instances used by counterexamples and witnesses -/

/-- Checked-mode library state for the C2 witness: two symbols, symbol 1
already cached in the shadow table, global bitmap still clear. -/
def c2State : LibState := ⟨[0, 0], [0, 4], [0, 0]⟩

/-- Lookup oracle for the C2 witness: symbol 0 resolves to address 6. -/
def c2Find : Nat → Option Nat := fun i => if i = 0 then some 6 else none

/-- Unresolved two-symbol group for the C2 witness. -/
def c2Group : Group := ⟨[0, 1], 0⟩

/-- Stub list for the C8 and C10 witnesses: one code stub, one data stub. -/
def c8Syms : List SymbolStub := [⟨"a", "a", false⟩, ⟨"b", "b", true⟩]

/-- Library state for the C5 witness: one symbol, nothing resolved. -/
def c5State : LibState := ⟨[0], [0], [0]⟩

/-- Lookup oracle for the C5 witness: the symbol is absent. -/
def c5Find : Nat → Option Nat := fun _ => none

/-- Unresolved one-symbol group for the C5 witness. -/
def c5Group : Group := ⟨[0], 0⟩

/-- Stub already present in the configuration of the C4 counterexample. -/
def c4Stub_e : SymbolStub := ⟨"e", "e", false⟩

/-- Configuration for the C4 counterexample: one registered stub `e` and
one registered group "A". -/
def c4Config : Config :=
  ⟨"lib", "x86_64-unknown-linux-gnu", [], true, [c4Stub_e], [("e", 0)], [("A", [0])]⟩

/-- The C4 counterexample call: group "B" first introduces a fresh stub `f`,
then a stub that redefines export name "e" with a different `is_data`. -/
def c4Call : Option AddGroupError × Config :=
  add_symbol_group c4Config "B" [⟨"f", "f", false⟩, ⟨"e2", "e", true⟩]

/-- Apple-target configuration for the C6 witness. -/
def c6Config : Config :=
  ⟨"plugin", "x86_64-apple-darwin", [], true,
   [⟨"foo", "foo", false⟩, ⟨"_bar", "_bar", false⟩, ⟨"baz", "get_baz", true⟩],
   [("foo", 0), ("_bar", 1), ("baz", 2)], []⟩

/-- Parsed ELF for the C3 counterexample: two defined dynamic symbols with
the same name "foo" (as produced, e.g., by two versions of one versioned
symbol), both mapping to the single section header. -/
def c3Elf : Elf where
  dynsyms := [⟨0, 0, false⟩, ⟨0, 0, false⟩]
  dynstrtab := fun n => if n = 0 then some "foo" else none
  section_headers := [⟨0⟩]
  shdr_strtab := fun _ => some ".text"
  syms := []
  strtab := fun _ => none
  shdr_relocs := []

/-- Parsed COFF for the C3 witness: two undefined symbols with the same
name, so the collected import set shows the deduplication. -/
def c3Coff : Coff := ⟨some [⟨0, Except.ok "x"⟩, ⟨0, Except.ok "x"⟩, ⟨0, Except.ok "y"⟩]⟩

/-- Parsed ELF for the C9 failing input: a single defined, named dynamic
symbol whose `st_shndx` is SHN_ABS (0xfff1 = 65521) — a legal ELF absolute
symbol — while the section-header table is empty, so
`elf.section_headers[sym.st_shndx]` is out of bounds. -/
def c9Elf : Elf where
  dynsyms := [⟨0, 65521, false⟩]
  dynstrtab := fun n => if n = 0 then some "foo" else none
  section_headers := []
  shdr_strtab := fun _ => none
  syms := []
  strtab := fun _ => none
  shdr_relocs := []

/-! ## Helper lemmas: runtime resolution -/

/-- A cached (non-zero) shadow slot is returned as is, with no lookup. -/
theorem resolve_symbol_checked_hit (find : Nat → Option Nat) (st : LibState) (i : Nat)
    (h : st.shadow_symbol_table.getD i 0 ≠ 0) :
    resolve_symbol true find st i = ⟨some (st.shadow_symbol_table.getD i 0), st, 0⟩ := by
  rw [List.getD_eq_getElem?_getD] at h
  simp [resolve_symbol, h]

/-- A zero shadow slot with a successful lookup writes the shadow slot. -/
theorem resolve_symbol_checked_miss (find : Nat → Option Nat) (st : LibState) (i a : Nat)
    (h : st.shadow_symbol_table.getD i 0 = 0) (hf : find i = some a) :
    resolve_symbol true find st i =
      ⟨some a, { st with shadow_symbol_table := st.shadow_symbol_table.set i a }, 1⟩ := by
  rw [List.getD_eq_getElem?_getD] at h
  simp [resolve_symbol, h, hf]

/-- In checked mode, a group whose every symbol is either already cached in
the shadow table or found by the platform resolves successfully, and the
loop never touches the global-assert bitmap. -/
theorem resolve_uncached_checked_ok (find : Nat → Option Nat) :
    ∀ (l : List Nat) (st : LibState),
      (∀ i ∈ l, st.shadow_symbol_table.getD i 0 ≠ 0 ∨ (find i).isSome) →
      (resolve_uncached true find st l).ok = true ∧
      (resolve_uncached true find st l).state.global_asserted = st.global_asserted := by
  intro l
  induction l with
  | nil => intro st _; exact ⟨rfl, rfl⟩
  | cons i rest ih =>
    intro st h
    by_cases hz : st.shadow_symbol_table.getD i 0 = 0
    · have hs : (find i).isSome := by
        rcases h i (List.mem_cons_self i rest) with hne | hsome
        · exact absurd hz hne
        · exact hsome
      rcases Option.isSome_iff_exists.mp hs with ⟨a, hf⟩
      have hr := resolve_symbol_checked_miss find st i a hz hf
      have hrest := ih { st with shadow_symbol_table := st.shadow_symbol_table.set i a }
        (by
          intro j hj
          rcases h j (List.mem_cons_of_mem _ hj) with hne | hsome
          · by_cases hij : i = j
            · subst hij
              exact Or.inr hs
            · left
              simpa [List.getD_eq_getElem?_getD, List.getElem?_set_ne hij] using hne
          · exact Or.inr hsome)
      simp only [resolve_uncached, hr]
      exact hrest
    · have hr := resolve_symbol_checked_hit find st i hz
      have hrest := ih st (fun j hj => h j (List.mem_cons_of_mem _ hj))
      simp only [resolve_uncached, hr]
      exact hrest

/-- Setting bitmap entries to 1 keeps an entry already holding 1 at 1. -/
theorem foldl_set_one_keep :
    ∀ (l : List Nat) (g : List Nat) (i : Nat), g.getD i 0 = 1 →
      (l.foldl (fun acc j => acc.set j 1) g).getD i 0 = 1 := by
  intro l
  induction l with
  | nil => intro g i h; exact h
  | cons j rest ih =>
    intro g i h
    have hlen : i < g.length := by
      by_contra hge
      have : g[i]? = none := List.getElem?_eq_none (Nat.le_of_not_lt hge)
      rw [List.getD_eq_getElem?_getD, this] at h
      exact absurd h (by decide)
    simp only [List.foldl_cons]
    apply ih
    by_cases hij : j = i
    · subst hij
      rw [List.getD_eq_getElem?_getD, List.getElem?_set_self hlen]
      rfl
    · rw [List.getD_eq_getElem?_getD, List.getElem?_set_ne hij, ← List.getD_eq_getElem?_getD]
      exact h

/-- After `global_assert_resolved`'s fold, every in-bounds member index
holds 1. -/
theorem foldl_set_one_mem :
    ∀ (l : List Nat) (g : List Nat) (i : Nat), i ∈ l → i < g.length →
      (l.foldl (fun acc j => acc.set j 1) g).getD i 0 = 1 := by
  intro l
  induction l with
  | nil => intro g i h _; cases h
  | cons j rest ih =>
    intro g i hmem hlen
    simp only [List.foldl_cons]
    rcases List.mem_cons.mp hmem with hij | hm
    · subst hij
      apply foldl_set_one_keep
      rw [List.getD_eq_getElem?_getD, List.getElem?_set_self hlen]
      rfl
    · exact ih (g.set j 1) i hm (by simpa [List.length_set] using hlen)

/-- In non-checked mode a group containing a symbol the platform cannot
find fails to resolve. -/
theorem resolve_uncached_fail (find : Nat → Option Nat) :
    ∀ (l : List Nat) (st : LibState), (∃ i ∈ l, find i = none) →
      (resolve_uncached false find st l).ok = false := by
  intro l
  induction l with
  | nil =>
    rintro st ⟨i, hi, _⟩
    cases hi
  | cons j rest ih =>
    rintro st ⟨i, hmem, hnone⟩
    cases hfj : find j with
    | none => simp [resolve_uncached, resolve_symbol, hfj]
    | some a =>
      have hm : i ∈ rest := by
        rcases List.mem_cons.mp hmem with hij | hm
        · subst hij
          rw [hfj] at hnone
          cases hnone
        · exact hm
      simp only [resolve_uncached, resolve_symbol, hfj, Bool.if_false_right]
      exact ih _ ⟨i, hm, hnone⟩

/-- A group whose cached status byte is FAILED returns the cached failure:
no state change, no status change and no platform lookup. -/
theorem group_resolve_cached_failed (checked : Bool) (find : Nat → Option Nat)
    (st : LibState) (g : Group) (h : g.status = GROUP_STATUS_FAILED) :
    Group.resolve checked find st g = ⟨false, st, g, 0⟩ := by
  obtain ⟨idx, s⟩ := g
  simp only [GROUP_STATUS_FAILED] at h
  subst h
  rfl

/-! ## C1 -/

/-- Counterexample to C1 as stated: in non-checked mode, with the slot of
symbol 0 already holding the non-zero address 5, `resolve_symbol` does not
return the stored value — it performs a platform lookup (one `find_symbol`
call) and returns the fresh result 7. -/
theorem c1_counterexample :
    c1State.symbol_table.getD 0 0 = 5 ∧ (5 : Nat) ≠ 0 ∧
    (resolve_symbol false c1Find c1State 0).findCalls = 1 ∧
    (resolve_symbol false c1Find c1State 0).result = some 7 ∧
    ¬((resolve_symbol false c1Find c1State 0).result = some 5 ∧
      (resolve_symbol false c1Find c1State 0).findCalls = 0) := by
  decide

/-- C1 (amended): it is in checked mode, and for the shadow-table slot, that
`Library::resolve_symbol` returns an already stored non-zero value without
calling the platform `find_symbol`; a platform lookup happens only when
that slot is zero.  In non-checked mode `resolve_symbol` performs exactly
one platform lookup on every call, whatever the slot holds. -/
theorem c1_resolve_symbol_caching (find : Nat → Option Nat) (st : LibState) (i : Nat) :
    (st.shadow_symbol_table.getD i 0 ≠ 0 →
      resolve_symbol true find st i = ⟨some (st.shadow_symbol_table.getD i 0), st, 0⟩) ∧
    (st.shadow_symbol_table.getD i 0 = 0 →
      (resolve_symbol true find st i).findCalls = 1) ∧
    (resolve_symbol false find st i).findCalls = 1 := by
  refine ⟨fun h => resolve_symbol_checked_hit find st i h, fun h => ?_, ?_⟩
  · rw [List.getD_eq_getElem?_getD] at h
    cases hf : find i <;> simp [resolve_symbol, h, hf]
  · cases hf : find i <;> simp [resolve_symbol, hf]

/-- Witness for `c1_resolve_symbol_caching` at a concrete state: shadow slot
0 caches address 5, so checked-mode resolution returns 5 with zero lookups. -/
theorem c1_resolve_symbol_caching_witness :
    resolve_symbol true (fun _ => some 7) ⟨[0], [5], [0]⟩ 0 = ⟨some 5, ⟨[0], [5], [0]⟩, 0⟩ :=
  (c1_resolve_symbol_caching (fun _ => some 7) ⟨[0], [5], [0]⟩ 0).1 (by decide)

/-! ## C2 -/

/-- C2: in checked mode, a group in the Unknown (UNRESOLVED) state whose
every symbol resolves successfully — each index is either already cached in
the shadow table or found by the platform — resolves to true, promotes all
of its indices into the global-assert bitmap, and stores status RESOLVED. -/
theorem c2_group_resolve_promotes (find : Nat → Option Nat) (st : LibState) (g : Group)
    (hstatus : g.status = GROUP_STATUS_UNRESOLVED)
    (hidx : ∀ i ∈ g.sym_indices, i < st.global_asserted.length)
    (hres : ∀ i ∈ g.sym_indices, st.shadow_symbol_table.getD i 0 ≠ 0 ∨ (find i).isSome) :
    (Group.resolve true find st g).ok = true ∧
    (Group.resolve true find st g).group.status = GROUP_STATUS_RESOLVED ∧
    (∀ i ∈ g.sym_indices, (Group.resolve true find st g).state.global_asserted.getD i 0 = 1) := by
  obtain ⟨huok, hglob⟩ := resolve_uncached_checked_ok find g.sym_indices st hres
  simp only [GROUP_STATUS_UNRESOLVED] at hstatus
  have hmain : Group.resolve true find st g =
      ⟨true, global_assert_resolved true (resolve_uncached true find st g.sym_indices).state
          g.sym_indices,
        { g with status := GROUP_STATUS_RESOLVED },
        (resolve_uncached true find st g.sym_indices).findCalls⟩ := by
    unfold Group.resolve
    rw [hstatus]
    simp only [huok]
  refine ⟨by rw [hmain], by rw [hmain], fun i hi => ?_⟩
  rw [hmain]
  simp only [global_assert_resolved, if_pos rfl, hglob]
  exact foldl_set_one_mem g.sym_indices st.global_asserted i hi (hidx i hi)

/-- Witness for `c2_group_resolve_promotes`: the two-symbol group of
`c2State` resolves (symbol 0 found by the platform, symbol 1 cached) and
both bitmap bytes become 1. -/
theorem c2_group_resolve_promotes_witness :
    (Group.resolve true c2Find c2State c2Group).ok = true ∧
    (Group.resolve true c2Find c2State c2Group).group.status = GROUP_STATUS_RESOLVED ∧
    (Group.resolve true c2Find c2State c2Group).state.global_asserted.getD 0 0 = 1 ∧
    (Group.resolve true c2Find c2State c2Group).state.global_asserted.getD 1 0 = 1 := by
  have h := c2_group_resolve_promotes c2Find c2State c2Group (by decide) (by decide) (by decide)
  exact ⟨h.1, h.2.1, h.2.2 0 (by decide), h.2.2 1 (by decide)⟩

/-! ## C5 -/

/-- C5: a group in the Unknown state containing a symbol the platform
cannot find fails its first `resolve`, which stores status FAILED; any
later `resolve` on the resulting group — under any library state and any
lookup oracle — returns the cached failure with zero platform lookups and
no state change. -/
theorem c5_failure_caching (find : Nat → Option Nat) (st : LibState) (g : Group)
    (hstatus : g.status = GROUP_STATUS_UNRESOLVED)
    (hfail : ∃ i ∈ g.sym_indices, find i = none) :
    (Group.resolve false find st g).ok = false ∧
    (Group.resolve false find st g).group.status = GROUP_STATUS_FAILED ∧
    (∀ (st2 : LibState) (find2 : Nat → Option Nat),
      Group.resolve false find2 st2 (Group.resolve false find st g).group =
        ⟨false, st2, (Group.resolve false find st g).group, 0⟩) := by
  have hf := resolve_uncached_fail find g.sym_indices st hfail
  simp only [GROUP_STATUS_UNRESOLVED] at hstatus
  have hmain : Group.resolve false find st g =
      ⟨false, (resolve_uncached false find st g.sym_indices).state,
        { g with status := GROUP_STATUS_FAILED },
        (resolve_uncached false find st g.sym_indices).findCalls⟩ := by
    unfold Group.resolve
    rw [hstatus]
    simp only [hf]
  refine ⟨by rw [hmain], by rw [hmain], fun st2 find2 => ?_⟩
  rw [hmain]
  exact group_resolve_cached_failed false find2 st2 _ rfl

/-- Witness for `c5_failure_caching`: the one-symbol group over the
always-failing oracle fails, caches FAILED, and the second call is a no-op
failure. -/
theorem c5_failure_caching_witness :
    (Group.resolve false c5Find c5State c5Group).ok = false ∧
    (Group.resolve false c5Find c5State c5Group).group.status = GROUP_STATUS_FAILED ∧
    Group.resolve false c5Find c5State (Group.resolve false c5Find c5State c5Group).group =
      ⟨false, c5State, (Group.resolve false c5Find c5State c5Group).group, 0⟩ := by
  have h := c5_failure_caching c5Find c5State c5Group (by decide) ⟨0, by decide, rfl⟩
  exact ⟨h.1, h.2.1, h.2.2 c5State c5Find⟩

/-! ## Helper lemmas: build-time configuration -/

/-- Association lookup is stable under appending new entries on the right. -/
theorem alookup_append_left {β : Type} (key : String) (v : β) :
    ∀ (l l2 : List (String × β)), alookup l key = some v → alookup (l ++ l2) key = some v := by
  intro l l2
  induction l with
  | nil => intro h; cases h
  | cons p rest ih =>
    intro h
    by_cases hp : p.1 = key
    · simp only [alookup, if_pos hp] at h
      simp only [List.cons_append, alookup, if_pos hp, h]
    · simp only [alookup, if_neg hp] at h
      simp only [List.cons_append, alookup, if_neg hp]
      exact ih h

/-- Indexing is stable under appending on the right. -/
theorem getElem?_append_some {α : Type} (x : α) :
    ∀ (l l2 : List α) (i : Nat), l[i]? = some x → (l ++ l2)[i]? = some x := by
  intro l l2
  induction l with
  | nil => intro i h; cases i <;> cases h
  | cons a rest ih =>
    intro i h
    cases i with
    | zero => simpa using h
    | succ n =>
      simp only [List.getElem?_cons_succ] at h
      simpa only [List.cons_append, List.getElem?_cons_succ] using ih n h

/-- The `add_symbol_group` loop, run on a symbol list containing a stub
that conflicts with the current configuration, returns one of the two
incompatible-redefinition errors; the groups map is untouched, but the
stub table may have grown by the fresh stubs appended before the failure. -/
theorem add_symbol_group_loop_conflict (group_name : String) :
    ∀ (symbols : List SymbolStub) (c : Config) (acc : List Nat),
      (∃ s ∈ symbols, conflicts_with c s) →
      ((add_symbol_group_loop group_name c symbols acc).1 = some AddGroupError.incompatibleIsData ∨
       (add_symbol_group_loop group_name c symbols acc).1 = some AddGroupError.incompatibleImportName) ∧
      (add_symbol_group_loop group_name c symbols acc).2.groups = c.groups ∧
      (∃ t, (add_symbol_group_loop group_name c symbols acc).2.stubs = c.stubs ++ t) := by
  intro symbols
  induction symbols with
  | nil =>
    rintro c acc ⟨s, hs, _⟩
    cases hs
  | cons s0 rest ih =>
    rintro c acc ⟨s, hmem, hconf⟩
    cases hl : alookup c.stub_by_exp s0.export_name with
    | some idx =>
      by_cases hd : (c.stubs.getD idx default).is_data ≠ s0.is_data
      · simp only [add_symbol_group_loop, hl, if_pos hd]
        exact ⟨by simp, by simp, [], by simp⟩
      · by_cases hi : (c.stubs.getD idx default).import_name ≠ s0.import_name
        · simp only [add_symbol_group_loop, hl, if_neg hd, if_pos hi]
          exact ⟨by simp, by simp, [], by simp⟩
        · simp only [add_symbol_group_loop, hl, if_neg hd, if_neg hi]
          apply ih c (acc ++ [idx])
          rcases List.mem_cons.mp hmem with heq | hm
          · exfalso
            subst heq
            obtain ⟨idx', st', hl', hg', hmis⟩ := hconf
            rw [hl] at hl'
            have hidx : idx = idx' := Option.some.inj hl'
            rw [← hidx] at hg'
            have hgd : c.stubs.getD idx default = st' := by
              rw [List.getD_eq_getElem?_getD, hg']
              rfl
            rw [hgd] at hd hi
            push_neg at hd hi
            rcases hmis with h1 | h1
            · exact h1 hd
            · exact h1 hi
          · exact ⟨s, hm, hconf⟩
    | none =>
      simp only [add_symbol_group_loop, hl]
      have hm : s ∈ rest := by
        rcases List.mem_cons.mp hmem with heq | hm
        · exfalso
          subst heq
          obtain ⟨idx', st', hl', _, _⟩ := hconf
          rw [hl] at hl'
          cases hl'
        · exact hm
      have hconf2 :
          conflicts_with
            { c with
              stubs := c.stubs ++ [s0],
              stub_by_exp := c.stub_by_exp ++ [(s0.export_name, c.stubs.length)] } s := by
        obtain ⟨idx', st', hl', hg', hmis⟩ := hconf
        exact ⟨idx', st', alookup_append_left s.export_name idx' _ _ hl',
          getElem?_append_some st' _ _ idx' hg', hmis⟩
      obtain ⟨herr, hgr, t, hst⟩ := ih _ _ ⟨s, hm, hconf2⟩
      refine ⟨herr, hgr, [s0] ++ t, ?_⟩
      rw [hst]
      simp

/-! ## C4 -/

/-- Counterexample to C4 as stated: in `c4Config`, adding group "B" whose
list holds a fresh stub `f` followed by an incompatible redefinition of
export name "e" fails with the incompatible-`is_data` error, yet the
configuration is not what it was before the call — stub `f` stays
appended to the stub table. -/
theorem c4_counterexample :
    c4Call.1 = some AddGroupError.incompatibleIsData ∧
    c4Call.2 ≠ c4Config ∧
    c4Call.2.stubs = [c4Stub_e, ⟨"f", "f", false⟩] ∧
    c4Config.stubs = [c4Stub_e] := by
  decide

/-- C4 (amended): a call to `add_symbol_group` on a fresh group name whose
symbol list contains a stub conflicting with an existing stub (same
`export_name`, different `is_data` or `import_name`) fails with an
incompatible-redefinition error and leaves the groups map exactly as it
was; the stub table is only ever extended — stubs appended for fresh export
names seen before the conflicting stub remain appended. -/
theorem c4_incompatible_redefinition (c : Config) (group_name : String)
    (symbols : List SymbolStub)
    (hgrp : alookup c.groups group_name = none)
    (hconf : ∃ s ∈ symbols, conflicts_with c s) :
    ((add_symbol_group c group_name symbols).1 = some AddGroupError.incompatibleIsData ∨
     (add_symbol_group c group_name symbols).1 = some AddGroupError.incompatibleImportName) ∧
    (add_symbol_group c group_name symbols).2.groups = c.groups ∧
    (∃ t, (add_symbol_group c group_name symbols).2.stubs = c.stubs ++ t) := by
  unfold add_symbol_group
  rw [hgrp]
  simp only [Option.isSome_none, Bool.false_eq_true, if_false]
  exact add_symbol_group_loop_conflict group_name symbols c [] hconf

/-- Witness for `c4_incompatible_redefinition`, at the concrete call of the
counterexample. -/
theorem c4_incompatible_redefinition_witness :
    ((add_symbol_group c4Config "B" [⟨"f", "f", false⟩, ⟨"e2", "e", true⟩]).1 =
        some AddGroupError.incompatibleIsData ∨
     (add_symbol_group c4Config "B" [⟨"f", "f", false⟩, ⟨"e2", "e", true⟩]).1 =
        some AddGroupError.incompatibleImportName) ∧
    (add_symbol_group c4Config "B" [⟨"f", "f", false⟩, ⟨"e2", "e", true⟩]).2.groups =
      c4Config.groups ∧
    (∃ t, (add_symbol_group c4Config "B" [⟨"f", "f", false⟩, ⟨"e2", "e", true⟩]).2.stubs =
      c4Config.stubs ++ t) :=
  c4_incompatible_redefinition c4Config "B" [⟨"f", "f", false⟩, ⟨"e2", "e", true⟩]
    (by decide) ⟨⟨"e2", "e", true⟩, by decide, 0, c4Stub_e, by decide, by decide, Or.inl (by decide)⟩

/-! ## C6 -/

/-- C6: when the target triple contains "-apple-" and `adjust_symbol_names`
is enabled, the stub list used by `generate_source` transforms exactly the
non-data stubs whose export and import names are equal — dropping the
leading underscore from `import_name` when the name starts with one,
otherwise prepending an underscore to `export_name` — while the stubs
stored in the `Config` are left unchanged. -/
theorem c6_apple_name_adjustment (c : Config)
    (hadj : c.adjust_symbol_names = true)
    (happle : str_contains c.target "-apple-" = true) :
    (adjusted_stubs c).length = c.stubs.length ∧
    (∀ (i : Nat) (s : SymbolStub), c.stubs[i]? = some s →
      (adjusted_stubs c)[i]? = some (
        if s.is_data = false ∧ s.export_name = s.import_name then
          if starts_with_underscore s.export_name then
            { s with import_name := string_drop_first s.import_name }
          else { s with export_name := string_prepend_underscore s.export_name }
        else s)) ∧
    (generate_source_stubs c).2 = c := by
  have hcond : adjusted_stubs c = c.stubs.map adjust_stub := by
    unfold adjusted_stubs
    rw [if_pos ⟨hadj, happle⟩]
  refine ⟨by rw [hcond, List.length_map], fun i s hs => ?_, rfl⟩
  rw [hcond, List.getElem?_map, hs]
  rfl

/-- Witness for `c6_apple_name_adjustment` on `c6Config` (target
x86_64-apple-darwin): "foo" gains an underscore on the export side, "_bar"
loses the underscore on the import side, and the data stub is untouched. -/
theorem c6_apple_name_adjustment_witness :
    (adjusted_stubs c6Config)[0]? = some ⟨"foo", "_foo", false⟩ ∧
    (adjusted_stubs c6Config)[1]? = some ⟨"bar", "_bar", false⟩ ∧
    (adjusted_stubs c6Config)[2]? = some ⟨"baz", "get_baz", true⟩ := by
  have h := c6_apple_name_adjustment c6Config rfl rfl
  exact ⟨(h.2.1 0 ⟨"foo", "foo", false⟩ rfl).trans (by decide),
    (h.2.1 1 ⟨"_bar", "_bar", false⟩ rfl).trans (by decide),
    (h.2.1 2 ⟨"baz", "get_baz", true⟩ rfl).trans (by decide)⟩

/-! ## C8 -/

/-- C8: the generated translation unit opens with the symbol-table assembly
block, which has exactly one pointer-sized entry per stub; entry `i` is
initialized with the per-symbol thunk label `resolve_<i>` exactly when a
resolver is supplied (lazy binding) and stub `i` is a code symbol, and with
0 in every other case. -/
theorem c8_symbol_table_init (dir : String) (sym_resolver : Option String)
    (symbols : List SymbolStub) :
    (StubGenerator.generate dir sym_resolver symbols).head? =
      some (GenItem.tableBlock (symbol_table_entries dir sym_resolver.isSome symbols)) ∧
    (symbol_table_entries dir sym_resolver.isSome symbols).length = symbols.length ∧
    (∀ (i : Nat) (s : SymbolStub), symbols[i]? = some s →
      (symbol_table_entries dir sym_resolver.isSome symbols)[i]? =
        some (if sym_resolver.isSome = true ∧ s.is_data = false then
            "    " ++ dir ++ " resolve_" ++ toString i
          else "    " ++ dir ++ " 0")) := by
  refine ⟨rfl, ?_, fun i s hs => ?_⟩
  · simp [symbol_table_entries, List.enum_length]
  · simp only [symbol_table_entries, List.getElem?_map, List.getElem?_enum, hs, Option.map_some]
    rfl

/-- Witness for `c8_symbol_table_init` on `c8Syms` under lazy binding: the
code stub's entry is a thunk pointer, the data stub's entry is zero. -/
theorem c8_symbol_table_init_witness :
    (symbol_table_entries ".quad" (some "sym_resolver").isSome c8Syms)[0]? =
      some "    .quad resolve_0" ∧
    (symbol_table_entries ".quad" (some "sym_resolver").isSome c8Syms)[1]? =
      some "    .quad 0" := by
  have h := c8_symbol_table_init ".quad" (some "sym_resolver") c8Syms
  exact ⟨(h.2.2 0 ⟨"a", "a", false⟩ rfl).trans (by decide),
    (h.2.2 1 ⟨"b", "b", true⟩ rfl).trans (by decide)⟩

/-! ## C10 -/

/-- C10: a data stub's symbol-table slot is initialized to zero even under
lazy binding; the generated item for the stub is a data accessor, and
calling that accessor against the freshly assembled table returns address 0
and never enters the lazy resolver. -/
theorem c10_data_slot_and_accessor (dir : String) (sym_resolver : Option String)
    (symbols : List SymbolStub) (i : Nat) (s : SymbolStub)
    (hs : symbols[i]? = some s) (hdata : s.is_data = true) :
    (init_table sym_resolver.isSome symbols)[i]? = some (Slot.value 0) ∧
    GenItem.dataAccessor s.export_name i ∈ StubGenerator.generate dir sym_resolver symbols ∧
    (∀ thunk_addr : Nat → Nat,
      call_generated thunk_addr (init_table sym_resolver.isSome symbols)
        (GenItem.dataAccessor s.export_name i) = some (CallOutcome.returnsAddress 0)) ∧
    (∀ (thunk_addr : Nat → Nat) (j : Nat),
      call_generated thunk_addr (init_table sym_resolver.isSome symbols)
        (GenItem.dataAccessor s.export_name i) ≠ some (CallOutcome.entersResolver j)) := by
  have hslot : (init_table sym_resolver.isSome symbols)[i]? = some (Slot.value 0) := by
    simp only [init_table, List.getElem?_map, List.getElem?_enum, hs, Option.map_some]
    simp [init_slot, hdata]
  have hcall : ∀ thunk_addr : Nat → Nat,
      call_generated thunk_addr (init_table sym_resolver.isSome symbols)
        (GenItem.dataAccessor s.export_name i) = some (CallOutcome.returnsAddress 0) := by
    intro thunk_addr
    simp [call_generated, hslot, slot_address]
  refine ⟨hslot, ?_, hcall, fun thunk_addr j => by simp [hcall thunk_addr]⟩
  have henum : (i, s) ∈ symbols.enum := by
    apply List.getElem?_mem
    rw [List.getElem?_enum, hs]
    rfl
  have hmap := List.mem_map_of_mem
    (fun p : Nat × SymbolStub =>
      if p.2.is_data = false then GenItem.fnStub p.2.export_name p.1 sym_resolver.isSome
      else GenItem.dataAccessor p.2.export_name p.1) henum
  simp only [hdata] at hmap
  unfold StubGenerator.generate
  refine List.mem_append.mpr (Or.inr ?_)
  simpa using hmap

/-- Witness for `c10_data_slot_and_accessor` at the data stub of `c8Syms`
under lazy binding, with arbitrary concrete thunk addresses. -/
theorem c10_data_slot_and_accessor_witness :
    (init_table (some "sym_resolver").isSome c8Syms)[1]? = some (Slot.value 0) ∧
    call_generated (fun _ => 77) (init_table (some "sym_resolver").isSome c8Syms)
      (GenItem.dataAccessor "b" 1) = some (CallOutcome.returnsAddress 0) := by
  have h := c10_data_slot_and_accessor ".quad" (some "sym_resolver") c8Syms 1
    ⟨"b", "b", true⟩ rfl rfl
  exact ⟨h.1, h.2.2.1 (fun _ => 77)⟩

/-! ## Helper lemmas: section range index -/

/-- Unfolded shape of `SectionRanges.lookup`. -/
theorem lookup_unfold (ranges : List RangeEntry) (offset : Nat) :
    SectionRanges.lookup ranges offset =
      match (ranges.takeWhile (fun r => decide (r.1 ≤ offset))).getLast? with
      | some r => if (r.1 + r.2.1) % U64_MOD > offset then some r.2.2 else none
      | none => none := rfl

/-- Populating a `SectionRanges` yields a permutation of the inserted list. -/
theorem build_ranges_perm_aux :
    ∀ (rl s : List RangeEntry),
      (rl.foldl (fun acc r => SectionRanges.insert acc r.1 r.2.1 r.2.2) s).Perm (rl ++ s) := by
  intro rl
  induction rl with
  | nil => intro s; simp
  | cons r rest ih =>
    intro s
    simp only [List.foldl_cons, List.cons_append]
    have h1 := ih (SectionRanges.insert s r.1 r.2.1 r.2.2)
    have h2 : (SectionRanges.insert s r.1 r.2.1 r.2.2).Perm (r :: s) :=
      List.perm_orderedInsert range_le (r.1, r.2.1, r.2.2) s
    exact (h1.trans (List.Perm.append_left rest h2)).trans List.perm_middle

theorem build_ranges_perm (rl : List RangeEntry) : (build_ranges rl).Perm rl := by
  simpa using build_ranges_perm_aux rl []

/-- Populating a `SectionRanges` keeps it sorted by starting offset. -/
theorem build_ranges_sorted_aux :
    ∀ (rl s : List RangeEntry), s.Sorted range_le →
      (rl.foldl (fun acc r => SectionRanges.insert acc r.1 r.2.1 r.2.2) s).Sorted range_le := by
  intro rl
  induction rl with
  | nil => intro s hs; simpa using hs
  | cons r rest ih =>
    intro s hs
    simp only [List.foldl_cons]
    exact ih _ (List.Sorted.orderedInsert (r.1, r.2.1, r.2.2) s hs)

theorem build_ranges_sorted (rl : List RangeEntry) : (build_ranges rl).Sorted range_le :=
  build_ranges_sorted_aux rl [] (by simp)

/-- On a sorted list the prefix kept by the upper-bound search consists of
exactly the entries whose offset is ≤ the target. -/
theorem takeWhile_le_mem (offset : Nat) :
    ∀ (L : List RangeEntry), L.Sorted range_le →
      ∀ r : RangeEntry, r ∈ L.takeWhile (fun q => decide (q.1 ≤ offset)) ↔
        r ∈ L ∧ r.1 ≤ offset := by
  intro L
  induction L with
  | nil => intro _ r; simp
  | cons a rest ih =>
    intro hsort r
    rw [List.sorted_cons] at hsort
    obtain ⟨ha, hrest⟩ := hsort
    by_cases hla : a.1 ≤ offset
    · rw [List.takeWhile_cons]
      simp only [decide_eq_true_eq, if_pos hla]
      rw [List.mem_cons, List.mem_cons, ih hrest r]
      constructor
      · rintro (rfl | ⟨hr, hle⟩)
        · exact ⟨Or.inl rfl, hla⟩
        · exact ⟨Or.inr hr, hle⟩
      · rintro ⟨rfl | hr, hle⟩
        · exact Or.inl rfl
        · exact Or.inr ⟨hr, hle⟩
    · rw [List.takeWhile_cons]
      simp only [decide_eq_true_eq, if_neg hla]
      simp only [List.not_mem_nil, false_iff]
      rintro ⟨hmem, hle⟩
      rcases List.mem_cons.mp hmem with rfl | hr
      · exact hla hle
      · exact hla (Nat.le_trans (ha r hr) hle)

/-- The last entry of a non-empty list is a member. -/
theorem getLast?_mem_some {α : Type} : ∀ (l : List α) (b : α), l.getLast? = some b → b ∈ l := by
  intro l
  induction l with
  | nil => intro b h; cases h
  | cons a rest ih =>
    intro b h
    cases rest with
    | nil =>
      rw [List.getLast?_singleton] at h
      rw [← Option.some.inj h]
      exact List.mem_cons_self a []
    | cons c cs =>
      rw [List.getLast?_cons_cons] at h
      exact List.mem_cons_of_mem _ (ih b h)

/-- In a list sorted by starting offset, the last entry has the greatest
starting offset. -/
theorem getLast?_max_of_sorted :
    ∀ (L : List RangeEntry), L.Sorted range_le →
      ∀ b, L.getLast? = some b → ∀ r ∈ L, r.1 ≤ b.1 := by
  intro L
  induction L with
  | nil => intro _ b h; cases h
  | cons a rest ih =>
    intro hsort b hlast r hr
    rw [List.sorted_cons] at hsort
    obtain ⟨ha, hrest⟩ := hsort
    cases rest with
    | nil =>
      rw [List.getLast?_singleton] at hlast
      rcases List.mem_cons.mp hr with rfl | hr0
      · rw [← Option.some.inj hlast]
      · cases hr0
    | cons c cs =>
      rw [List.getLast?_cons_cons] at hlast
      rcases List.mem_cons.mp hr with rfl | hr0
      · exact ha b (getLast?_mem_some _ b hlast)
      · exact ih hrest b hlast r hr0

/-- A filter whose members are all equal to `x`, with `x` among them, has
head `x`. -/
theorem filter_head_eq {α : Type} (p : α → Bool) (l : List α) (x : α)
    (hx : x ∈ l.filter p) (huniq : ∀ y ∈ l.filter p, y = x) :
    (l.filter p).head? = some x := by
  cases hf : l.filter p with
  | nil =>
    rw [hf] at hx
    cases hx
  | cons h t =>
    have hhx : h = x := huniq h (by rw [hf]; exact List.mem_cons_self h t)
    rw [List.head?_cons, hhx]

/-- Pairwise-disjoint ranges of positive size have pairwise distinct
starting offsets. -/
theorem keys_ne_of_disjoint :
    ∀ (rl : List RangeEntry), (∀ r ∈ rl, 0 < r.2.1) → List.Pairwise ranges_disjoint rl →
      List.Pairwise (fun a b : RangeEntry => a.1 ≠ b.1) rl := by
  intro rl
  induction rl with
  | nil => intro _ _; exact List.Pairwise.nil
  | cons a rest ih =>
    intro hpos hdis
    rw [List.pairwise_cons] at hdis ⊢
    obtain ⟨hab, hrest⟩ := hdis
    refine ⟨fun b hb => ?_, ih (fun r hr => hpos r (List.mem_cons_of_mem _ hr)) hrest⟩
    have hpa := hpos a (List.mem_cons_self a rest)
    have hpb := hpos b (List.mem_cons_of_mem _ hb)
    rcases hab b hb with h | h | h | h <;> omega

/-! ## C7 -/

/-- Counterexample to C7 as stated: insert the empty range (50, 0, "B") and
then (50, 10, "A") — the two do not overlap (an empty range overlaps
nothing).  Lookup at offset 55 returns absent, although inserted range "A"
has the greatest starting offset ≤ 55 among the ranges and its start plus
size (60) strictly exceeds 55; `lookup_spec`, the claim's selection rule,
answers "A". -/
theorem c7_counterexample :
    List.Pairwise ranges_disjoint [((50 : Nat), (0 : Nat), "B"), (50, 10, "A")] ∧
    SectionRanges.insert (SectionRanges.insert [] 50 0 "B") 50 10 "A" =
      [(50, 10, "A"), (50, 0, "B")] ∧
    SectionRanges.lookup (SectionRanges.insert (SectionRanges.insert [] 50 0 "B") 50 10 "A") 55 =
      none ∧
    lookup_spec [((50 : Nat), (0 : Nat), "B"), (50, 10, "A")] 55 = some "A" ∧
    ((50 : Nat) ≤ 55 ∧ 55 < 50 + 10 ∧
      ∀ r ∈ [((50 : Nat), (0 : Nat), "B"), (50, 10, "A")], r.1 ≤ 55 → r.1 ≤ 50) := by
  decide

/-- C7 (amended): for ranges of positive size (and with `start + size`
within u64), inserted in any order with no overlaps, the lookup returns
exactly what the claim's selection rule `lookup_spec` prescribes: the name
of the range whose starting offset is the greatest value ≤ the queried
offset and whose start plus size strictly exceeds it, absent when no such
range exists. -/
theorem c7_lookup_greatest_start (rl : List RangeEntry) (offset : Nat)
    (hpos : ∀ r ∈ rl, 0 < r.2.1)
    (hbnd : ∀ r ∈ rl, r.1 + r.2.1 < U64_MOD)
    (hdisj : List.Pairwise ranges_disjoint rl) :
    SectionRanges.lookup (build_ranges rl) offset = lookup_spec rl offset := by
  have hperm := build_ranges_perm rl
  have hsort := build_ranges_sorted rl
  have hne_rl := keys_ne_of_disjoint rl hpos hdisj
  have hmem_pre := takeWhile_le_mem offset (build_ranges rl) hsort
  have hsort_pre :
      ((build_ranges rl).takeWhile (fun r => decide (r.1 ≤ offset))).Sorted range_le :=
    List.Pairwise.sublist (List.takeWhile_sublist _) hsort
  rw [lookup_unfold]
  cases hlast : ((build_ranges rl).takeWhile (fun r => decide (r.1 ≤ offset))).getLast? with
  | none =>
    have hnil : (build_ranges rl).takeWhile (fun r => decide (r.1 ≤ offset)) = [] :=
      List.getLast?_eq_none_iff.mp hlast
    have hfe : rl.filter (fun r =>
        decide (r.1 ≤ offset ∧ (∀ q ∈ rl, q.1 ≤ offset → q.1 ≤ r.1) ∧
          offset < r.1 + r.2.1)) = [] := by
      rw [List.filter_eq_nil_iff]
      intro y hy hyp
      simp only [decide_eq_true_eq] at hyp
      have hymem : y ∈ (build_ranges rl).takeWhile (fun r => decide (r.1 ≤ offset)) :=
        (hmem_pre y).mpr ⟨hperm.mem_iff.mpr hy, hyp.1⟩
      rw [hnil] at hymem
      cases hymem
    unfold lookup_spec
    rw [hfe]
    rfl
  | some last =>
    have hlast_pre := getLast?_mem_some _ last hlast
    have hlast_le : last.1 ≤ offset := ((hmem_pre last).mp hlast_pre).2
    have hlast_rl : last ∈ rl := hperm.mem_iff.mp ((hmem_pre last).mp hlast_pre).1
    have hmax : ∀ r ∈ rl, r.1 ≤ offset → r.1 ≤ last.1 := by
      intro r hr hle
      exact getLast?_max_of_sorted _ hsort_pre last hlast r
        ((hmem_pre r).mpr ⟨hperm.mem_iff.mpr hr, hle⟩)
    have hmod : (last.1 + last.2.1) % U64_MOD = last.1 + last.2.1 :=
      Nat.mod_eq_of_lt (hbnd last hlast_rl)
    have hsymm : Symmetric (fun a b : RangeEntry => a.1 ≠ b.1) := fun _ _ h => h.symm
    show (if (last.1 + last.2.1) % U64_MOD > offset then some last.2.2 else none) =
      lookup_spec rl offset
    rw [hmod]
    by_cases hcont : offset < last.1 + last.2.1
    · rw [if_pos hcont]
      have hpred : (fun r : RangeEntry =>
          decide (r.1 ≤ offset ∧ (∀ q ∈ rl, q.1 ≤ offset → q.1 ≤ r.1) ∧
            offset < r.1 + r.2.1)) last = true := by
        simp only [decide_eq_true_eq]
        exact ⟨hlast_le, hmax, hcont⟩
      have hlf : last ∈ rl.filter (fun r =>
          decide (r.1 ≤ offset ∧ (∀ q ∈ rl, q.1 ≤ offset → q.1 ≤ r.1) ∧
            offset < r.1 + r.2.1)) :=
        List.mem_filter.mpr ⟨hlast_rl, hpred⟩
      have huniq : ∀ y ∈ rl.filter (fun r =>
          decide (r.1 ≤ offset ∧ (∀ q ∈ rl, q.1 ≤ offset → q.1 ≤ r.1) ∧
            offset < r.1 + r.2.1)), y = last := by
        intro y hy
        obtain ⟨hy_rl, hy_pred⟩ := List.mem_filter.mp hy
        simp only [decide_eq_true_eq] at hy_pred
        obtain ⟨hy_le, hy_max, _⟩ := hy_pred
        have hkey : y.1 = last.1 :=
          Nat.le_antisymm (hmax y hy_rl hy_le) (hy_max last hlast_rl hlast_le)
        by_contra hne
        exact List.Pairwise.forall hsymm hne_rl hy_rl hlast_rl hne hkey
      unfold lookup_spec
      rw [filter_head_eq _ rl last hlf huniq]
      rfl
    · rw [if_neg hcont]
      have hfe : rl.filter (fun r =>
          decide (r.1 ≤ offset ∧ (∀ q ∈ rl, q.1 ≤ offset → q.1 ≤ r.1) ∧
            offset < r.1 + r.2.1)) = [] := by
        rw [List.filter_eq_nil_iff]
        intro y hy hyp
        simp only [decide_eq_true_eq] at hyp
        obtain ⟨hy_le, hy_max, hy_cont⟩ := hyp
        have hkey : y.1 = last.1 :=
          Nat.le_antisymm (hmax y hy hy_le) (hy_max last hlast_rl hlast_le)
        have hy_eq : y = last := by
          by_contra hne
          exact List.Pairwise.forall hsymm hne_rl hy hlast_rl hne hkey
        rw [hy_eq] at hy_cont
        exact hcont hy_cont
      unfold lookup_spec
      rw [hfe]
      rfl

/-- Witness for `c7_lookup_greatest_start`: three positive disjoint ranges
inserted out of order; the lookup answers through the middle range. -/
theorem c7_lookup_greatest_start_witness :
    SectionRanges.lookup (build_ranges [(40, 8, "C"), (0, 16, "A"), (20, 4, "B")]) 22 =
      lookup_spec [(40, 8, "C"), (0, 16, "A"), (20, 4, "B")] 22 ∧
    SectionRanges.lookup (build_ranges [(40, 8, "C"), (0, 16, "A"), (20, 4, "B")]) 22 =
      some "B" := by
  refine ⟨c7_lookup_greatest_start [(40, 8, "C"), (0, 16, "A"), (20, 4, "B")] 22
    (by decide) (by decide) (by decide), by decide⟩

/-! ## Helper lemmas: import deduplication -/

/-- Set insertion preserves the absence of duplicates. -/
theorem insert_unique_nodup (acc : List String) (name : String) (h : acc.Nodup) :
    (insert_unique acc name).Nodup := by
  unfold insert_unique
  by_cases hm : name ∈ acc
  · rw [if_pos hm]
    exact h
  · rw [if_neg hm]
    refine List.nodup_append.mpr ⟨h, List.nodup_singleton name, ?_⟩
    intro a ha hb
    rw [List.mem_singleton] at hb
    subst hb
    exact hm ha

theorem elf_reloc_imports_nodup (elf : Elf) :
    ∀ (rs : List Reloc) (acc : List String), acc.Nodup →
      (elf_reloc_imports elf rs acc).Nodup := by
  intro rs
  induction rs with
  | nil => intro acc h; exact h
  | cons reloc rest ih =>
    intro acc h
    cases hsym : elf.syms[reloc.r_sym]? with
    | none =>
      simp only [elf_reloc_imports, hsym]
      exact ih acc h
    | some sym =>
      by_cases hg : sym.is_import = true ∧ sym.st_shndx = 0
      · cases hn : elf.strtab sym.st_name with
        | none =>
          simp only [elf_reloc_imports, hsym, if_pos hg, hn]
          exact ih acc h
        | some nm =>
          simp only [elf_reloc_imports, hsym, if_pos hg, hn]
          exact ih _ (insert_unique_nodup acc nm h)
      · simp only [elf_reloc_imports, hsym, if_neg hg]
        exact ih acc h

theorem elf_imports_nodup (elf : Elf) :
    ∀ (rss : List (List Reloc)) (acc : List String), acc.Nodup →
      (elf_imports elf rss acc).Nodup := by
  intro rss
  induction rss with
  | nil => intro acc h; exact h
  | cons rs rest ih =>
    intro acc h
    simp only [elf_imports]
    exact ih _ (elf_reloc_imports_nodup elf rs acc h)

theorem mach_reloc_imports_nodup (syms : Nat → Except String String) :
    ∀ (l : List (Except String MachReloc)) (acc res : List String), acc.Nodup →
      mach_reloc_imports syms l acc = Except.ok res → res.Nodup := by
  intro l
  induction l with
  | nil =>
    intro acc res h heq
    simp only [mach_reloc_imports] at heq
    rw [← Except.ok.inj heq]
    exact h
  | cons e rest ih =>
    intro acc res h heq
    cases e with
    | error msg =>
      simp only [mach_reloc_imports] at heq
      cases heq
    | ok reloc =>
      by_cases hx : reloc.is_extern = true
      · cases hs : syms reloc.r_symbolnum with
        | ok nm =>
          simp only [mach_reloc_imports, if_pos hx, hs] at heq
          exact ih _ res (insert_unique_nodup acc nm h) heq
        | error msg =>
          simp only [mach_reloc_imports, if_pos hx, hs] at heq
          cases heq
      · simp only [mach_reloc_imports, if_neg hx] at heq
        exact ih _ res h heq

theorem mach_iter_imports_nodup (syms : Nat → Except String String) :
    ∀ (its : List (List (Except String MachReloc))) (acc res : List String), acc.Nodup →
      mach_iter_imports syms its acc = Except.ok res → res.Nodup := by
  intro its
  induction its with
  | nil =>
    intro acc res h heq
    simp only [mach_iter_imports] at heq
    rw [← Except.ok.inj heq]
    exact h
  | cons it rest ih =>
    intro acc res h heq
    cases hm : mach_reloc_imports syms it acc with
    | ok acc2 =>
      simp only [mach_iter_imports, hm] at heq
      exact ih acc2 res (mach_reloc_imports_nodup syms it acc acc2 h hm) heq
    | error e =>
      simp only [mach_iter_imports, hm] at heq
      cases heq

theorem macho_imports_nodup (m : MachO) (acc res : List String) (h : acc.Nodup)
    (heq : macho_imports m acc = Except.ok res) : res.Nodup := by
  unfold macho_imports at heq
  cases hms : m.symbols with
  | none =>
    rw [hms] at heq
    rw [← Except.ok.inj heq]
    exact h
  | some syms =>
    rw [hms] at heq
    cases hr : m.relocations with
    | ok iters =>
      rw [hr] at heq
      exact mach_iter_imports_nodup syms iters acc res h heq
    | error e =>
      rw [hr] at heq
      cases heq

theorem coff_imports_nodup :
    ∀ (syms : List CoffSym) (acc res : List String), acc.Nodup →
      coff_imports syms acc = Except.ok res → res.Nodup := by
  intro syms
  induction syms with
  | nil =>
    intro acc res h heq
    simp only [coff_imports] at heq
    rw [← Except.ok.inj heq]
    exact h
  | cons s rest ih =>
    intro acc res h heq
    by_cases hz : s.section_number = 0
    · cases hn : s.name with
      | ok nm =>
        simp only [coff_imports, if_pos hz, hn] at heq
        exact ih _ res (insert_unique_nodup acc nm h) heq
      | error e =>
        simp only [coff_imports, if_pos hz, hn] at heq
        cases heq
    · simp only [coff_imports, if_neg hz] at heq
      exact ih acc res h heq

mutual
theorem get_unique_imports_nodup :
    ∀ (o : Object) (acc res : List String), acc.Nodup →
      get_unique_imports o acc = Except.ok res → res.Nodup
  | Object.elf e, acc, res, h, heq => by
    simp only [get_unique_imports] at heq
    rw [← Except.ok.inj heq]
    exact elf_imports_nodup e e.shdr_relocs acc h
  | Object.mach (Mach.binary m), acc, res, h, heq =>
    macho_imports_nodup m acc res h (by simpa [get_unique_imports] using heq)
  | Object.mach (Mach.fat (Except.ok (SingleArch.machO m))), acc, res, h, heq =>
    macho_imports_nodup m acc res h (by simpa [get_unique_imports] using heq)
  | Object.mach (Mach.fat (Except.ok SingleArch.archive)), _, _, _, heq => by
    simp [get_unique_imports] at heq
  | Object.mach (Mach.fat (Except.error e)), _, _, _, heq => by
    simp [get_unique_imports] at heq
  | Object.coff c, acc, res, h, heq => by
    simp only [get_unique_imports] at heq
    cases hc : c.symtab with
    | some syms =>
      rw [hc] at heq
      exact coff_imports_nodup syms acc res h heq
    | none =>
      rw [hc] at heq
      rw [← Except.ok.inj heq]
      exact h
  | Object.pe p, _, _, _, heq => by simp [get_unique_imports] at heq
  | Object.unknown, _, _, _, heq => by simp [get_unique_imports] at heq
  | Object.archive members, acc, res, h, heq =>
    get_unique_imports_list_nodup members acc res h (by simpa [get_unique_imports] using heq)

theorem get_unique_imports_list_nodup :
    ∀ (os : ObjectList) (acc res : List String), acc.Nodup →
      get_unique_imports_list os acc = Except.ok res → res.Nodup
  | ObjectList.nil, acc, res, h, heq => by
    simp only [get_unique_imports_list] at heq
    rw [← Except.ok.inj heq]
    exact h
  | ObjectList.cons o rest, acc, res, h, heq => by
    simp only [get_unique_imports_list] at heq
    cases hg : get_unique_imports o acc with
    | ok acc2 =>
      rw [hg] at heq
      exact get_unique_imports_list_nodup rest acc2 res
        (get_unique_imports_nodup o acc acc2 h hg) heq
    | error e =>
      rw [hg] at heq
      cases heq
end

/-! ## C3 -/

/-- Counterexample to C3 as stated: an ELF whose dynamic symbol table holds
two defined symbols with the same name "foo" makes `dylib_exports` return
the name twice — the export list is not deduplicated. -/
theorem c3_counterexample :
    dylib_exports (Object.elf c3Elf) =
      ExOutcome.ok [⟨"foo", some ".text"⟩, ⟨"foo", some ".text"⟩] ∧
    ¬((([⟨"foo", some ".text"⟩, ⟨"foo", some ".text"⟩] : List Export).map Export.name).Nodup) := by
  decide

/-- C3 (amended): `archive_imports` returns a list in which no symbol name
appears more than once (the collected set deduplicates); `dylib_exports`
performs no such deduplication. -/
theorem c3_archive_imports_nodup (o : Object) (l : List Import)
    (h : archive_imports o = Except.ok l) : (l.map Import.name).Nodup := by
  unfold archive_imports at h
  cases hg : get_unique_imports o [] with
  | ok names =>
    rw [hg] at h
    have hn : names.Nodup := get_unique_imports_nodup o [] names List.nodup_nil hg
    rw [← Except.ok.inj h]
    have hmap : (names.map (fun s => ({ name := s } : Import))).map Import.name = names := by
      rw [List.map_map]
      exact List.map_id names
    rw [hmap]
    exact hn
  | error e =>
    rw [hg] at h
    cases h

/-- Witness for `c3_archive_imports_nodup`: a COFF object with a duplicated
undefined symbol yields each import name once. -/
theorem c3_archive_imports_nodup_witness :
    archive_imports (Object.coff c3Coff) = Except.ok [⟨"x"⟩, ⟨"y"⟩] ∧
    ((([⟨"x"⟩, ⟨"y"⟩] : List Import).map Import.name).Nodup) := by
  have heval : archive_imports (Object.coff c3Coff) = Except.ok [⟨"x"⟩, ⟨"y"⟩] := by
    simp [archive_imports, get_unique_imports, c3Coff, coff_imports, insert_unique]
  exact ⟨heval, c3_archive_imports_nodup (Object.coff c3Coff) [⟨"x"⟩, ⟨"y"⟩] heval⟩

/-! ## C9 -/

/-- C9 failing input, evaluated: on `c9Elf` — a legal ELF exporting one
defined, named symbol whose `st_shndx` is SHN_ABS (65521), outside the
empty section-header table — `dylib_exports` panics (index out of bounds
at `elf.section_headers[sym.st_shndx]`) instead of returning a result or a
typed error. -/
theorem c9_elf_shndx_panics :
    dylib_exports (Object.elf c9Elf) = ExOutcome.panics ∧
    c9Elf.section_headers.length = 0 ∧
    (∃ sym ∈ c9Elf.dynsyms, sym.is_import = false ∧ sym.st_shndx = 65521) := by
  decide

end Weaklink
